import Mathlib

/-!
# Verification of the `graphrag.project` chat-archival subsystem

Shallow embedding of `graphrag/project` (models.py, manager.py,
reasoning_store.py, storage.py) in Lean 4.

Modelling conventions:

* JSON-able Python values (`Any` in metadata / graph snapshots) are the
  inductive `JValue`.  Python `dict`s are association lists in insertion
  order; Python compares dicts extensionally, and no property below
  observes key iteration order, so list-level equality is only ever used
  where the lists are produced in identical order.
* The filesystem is an association list from path strings to file
  contents.  `write_json`/`read_json` store and return the JSON value
  itself: `json.dumps`/`json.loads` round-trip the values in play here
  losslessly (the only change, key reordering under `sort_keys=True`, is
  invisible to Python equality), so the text layer is elided.
  Directories are not modelled: `ensure_directory` has no observable
  effect beyond making writes possible, which the map model gives for free.
* `datetime` values are modelled as `DateTime := Nat` and
  `isoformat`/`fromisoformat` as a mutually inverse rendering/parsing
  pair (decimal numerals stand in for the ISO 8601 text; the code under
  verification only relies on injectivity, on the pair being inverse,
  and on the trailing `"Z"` it appends/strips itself).
* Sources of nondeterminism (`datetime.utcnow()`, `uuid4().hex[:6]`) are
  passed in as explicit arguments.
* The SQLite table behind `ReasoningStore` is a list of rows in rowid
  (insertion) order; `ORDER BY step_index ASC` is a stable sort on that
  list, matching SQLite's behaviour for this single-table scan (ties are
  returned in storage order).
* Python is untyped; the embedding gives records their evident types and
  makes deserialization fail (`Except`) where Python would raise
  (`KeyError`, `ValueError` from `fromisoformat`), or where a stored
  value has the wrong shape.
-/

set_option autoImplicit false

/-- A JSON-able Python value (`None`, `str`, `int`, `list`, `dict`). -/
inductive JValue where
  | null : JValue
  | str (s : String) : JValue
  | int (n : Int) : JValue
  | arr (xs : List JValue) : JValue
  | obj (fields : List (String × JValue)) : JValue
deriving Repr

namespace JValue

/-- First binding for a key in an association list (Python dicts have unique keys). -/
def lookupField (k : String) : List (String × JValue) → Option JValue
  | [] => none
  | (k', v) :: rest => if k' = k then some v else lookupField k rest

/-- Python `data[k]` / `data.get(k)` on a JSON object. -/
def getKey (v : JValue) (k : String) : Option JValue :=
  match v with
  | .obj fields => lookupField k fields
  | _ => none

/-- The membership test `value in (None, {})` used by the `to_dict` filters. -/
def isNullOrEmptyObj : JValue → Bool
  | .null => true
  | .obj [] => true
  | _ => false

/-- Extract a Python string (the typed reading of an untyped field access). -/
def asStr : JValue → Option String
  | .str s => some s
  | _ => none

end JValue

/-- `None`-or-string rendered as a JSON value. -/
def jOptStr : Option String → JValue
  | none => JValue.null
  | some s => JValue.str s

/-! ## Timestamps

`datetime` is modelled as a natural number (seconds, microsecond-free as the
code always truncates with `replace(microsecond=0)`); `isoformat` renders it
as a decimal numeral and `fromisoformat` parses that numeral back.  All the
repository code relies on is that the pair is mutually inverse and that the
trailing `"Z"` is appended by `to_dict` and stripped by `_parse_timestamp`. -/

abbrev DateTime := Nat

/-- Little-endian decimal digits, via explicit fuel (structural recursion keeps
the function kernel-reducible). -/
def natDigitsRevGo : Nat → Nat → List Nat
  | 0, _ => []
  | _ + 1, 0 => []
  | fuel + 1, m + 1 => ((m + 1) % 10) :: natDigitsRevGo fuel ((m + 1) / 10)

def natDigitsRev (n : Nat) : List Nat := natDigitsRevGo (n + 1) n

/-- Recombine little-endian decimal digits. -/
def ofDigitsRev : List Nat → Nat
  | [] => 0
  | d :: ds => d + 10 * ofDigitsRev ds

def digitChar (d : Nat) : Char := Char.ofNat (d + 48)

def charDigit? (c : Char) : Option Nat :=
  if 48 ≤ c.toNat ∧ c.toNat ≤ 57 then some (c.toNat - 48) else none

def digitsOfChars : List Char → Option (List Nat)
  | [] => some []
  | c :: cs =>
    match charDigit? c, digitsOfChars cs with
    | some d, some ds => some (d :: ds)
    | _, _ => none

/-- Model of `datetime.isoformat()`: an injective rendering of the timestamp. -/
def isoformat (t : DateTime) : String :=
  String.mk (((natDigitsRev t).map digitChar).reverse)

/-- Model of `datetime.fromisoformat()`: inverse of `isoformat`; fails on text
`isoformat` cannot have produced. -/
def fromisoformat (s : String) : Option DateTime :=
  (digitsOfChars s.data.reverse).map ofDigitsRev

theorem ofDigitsRev_natDigitsRevGo (fuel n : Nat) (h : n < fuel) :
    ofDigitsRev (natDigitsRevGo fuel n) = n := by
  induction fuel generalizing n with
  | zero => omega
  | succ fuel ih =>
    cases n with
    | zero => simp [natDigitsRevGo, ofDigitsRev]
    | succ m =>
      have hlt : (m + 1) / 10 < fuel := by
        have := Nat.div_lt_self (Nat.succ_pos m) (by norm_num : (1:Nat) < 10)
        omega
      simp only [natDigitsRevGo, ofDigitsRev, ih _ hlt]
      omega

theorem natDigitsRevGo_lt (fuel n : Nat) : ∀ d ∈ natDigitsRevGo fuel n, d < 10 := by
  induction fuel generalizing n with
  | zero => simp [natDigitsRevGo]
  | succ fuel ih =>
    cases n with
    | zero => simp [natDigitsRevGo]
    | succ m =>
      simp only [natDigitsRevGo, List.mem_cons]
      rintro d (rfl | hd)
      · exact Nat.mod_lt _ (by norm_num)
      · exact ih _ d hd

theorem charDigit_digitChar : ∀ d, d < 10 → charDigit? (digitChar d) = some d := by
  decide

theorem digitsOfChars_map_digitChar (l : List Nat) (h : ∀ d ∈ l, d < 10) :
    digitsOfChars (l.map digitChar) = some l := by
  induction l with
  | nil => rfl
  | cons d ds ih =>
    have hd : d < 10 := h d (List.mem_cons_self _ _)
    have hds : ∀ x ∈ ds, x < 10 := fun x hx => h x (List.mem_cons_of_mem _ hx)
    simp [digitsOfChars, charDigit_digitChar d hd, ih hds]

theorem fromisoformat_isoformat (t : DateTime) :
    fromisoformat (isoformat t) = some t := by
  have hdata : (isoformat t).data = ((natDigitsRev t).map digitChar).reverse := rfl
  unfold fromisoformat
  rw [hdata, List.reverse_reverse,
    digitsOfChars_map_digitChar (natDigitsRev t) (natDigitsRevGo_lt _ _)]
  show some (ofDigitsRev (natDigitsRev t)) = some t
  rw [natDigitsRev, ofDigitsRev_natDigitsRevGo _ t (Nat.lt_succ_self t)]

/-! ## Data model (`graphrag/project/models.py`)

Python optional `Mapping` parameters (`metadata`, `graph_snapshot`) always
flow through `_serialize_metadata`, which maps `None` to `{}`; the model
therefore represents them directly as association lists, with `[]` playing
the role of both `None` and `{}` (indistinguishable downstream). -/

/-- `models._serialize_metadata`: a mapping is rendered as a JSON object. -/
def serialize_metadata (m : List (String × JValue)) : JValue := JValue.obj m

/-- The dict comprehension filter `if value not in (None, {})` shared by
`Persona`, `ReasoningStep` and `WorkflowHint`. -/
def dropNullOrEmpty (fields : List (String × JValue)) : List (String × JValue) :=
  fields.filter (fun kv => !kv.2.isNullOrEmptyObj)

structure Persona where
  name : String
  description : Option String := none
  metadata : List (String × JValue) := []
deriving Repr

def Persona.to_dict (p : Persona) : JValue :=
  JValue.obj (dropNullOrEmpty
    [("name", JValue.str p.name),
     ("description", jOptStr p.description),
     ("metadata", serialize_metadata p.metadata)])

structure ReasoningStep where
  name : String
  input_text : String
  output_text : String
  tool : Option String := none
  metadata : List (String × JValue) := []
deriving Repr

def ReasoningStep.to_dict (s : ReasoningStep) : JValue :=
  JValue.obj (dropNullOrEmpty
    [("name", JValue.str s.name),
     ("input_text", JValue.str s.input_text),
     ("output_text", JValue.str s.output_text),
     ("tool", jOptStr s.tool),
     ("metadata", serialize_metadata s.metadata)])

structure ChatSessionRecord where
  persona : Persona
  skills_used : List String
  input_prompt : String
  output_text : String
  reasoning : List ReasoningStep
  graph_snapshot : List (String × JValue) := []
  chat_id : Option String := none
  created_at : DateTime
deriving Repr

def ChatSessionRecord.to_dict (r : ChatSessionRecord) : JValue :=
  JValue.obj
    [("chat_id", jOptStr r.chat_id),
     ("created_at", JValue.str (isoformat r.created_at ++ "Z")),
     ("persona", r.persona.to_dict),
     ("skills_used", JValue.arr (r.skills_used.map JValue.str)),
     ("input_prompt", JValue.str r.input_prompt),
     ("output_text", JValue.str r.output_text),
     ("reasoning", JValue.arr (r.reasoning.map ReasoningStep.to_dict)),
     ("graph_snapshot", serialize_metadata r.graph_snapshot)]

structure AgentProcessRecord where
  agent_id : String
  source_chat_id : String
  persona : Persona
  skills : List String
  workflow : List ReasoningStep
  input_prompt : String
  expected_output : String
  created_at : DateTime
  graph_snapshot : List (String × JValue) := []
deriving Repr

def AgentProcessRecord.to_dict (r : AgentProcessRecord) : JValue :=
  JValue.obj
    [("agent_id", JValue.str r.agent_id),
     ("source_chat_id", JValue.str r.source_chat_id),
     ("created_at", JValue.str (isoformat r.created_at ++ "Z")),
     ("persona", r.persona.to_dict),
     ("skills", JValue.arr (r.skills.map JValue.str)),
     ("workflow", JValue.arr (r.workflow.map ReasoningStep.to_dict)),
     ("input_prompt", JValue.str r.input_prompt),
     ("expected_output", JValue.str r.expected_output),
     ("graph_snapshot", serialize_metadata r.graph_snapshot)]

structure ReportSynthesisRecord where
  report_id : String
  persona : Persona
  question : String
  output_text : String
  referenced_agent_ids : List String
  reasoning : List ReasoningStep
  created_at : DateTime
deriving Repr

def ReportSynthesisRecord.to_dict (r : ReportSynthesisRecord) : JValue :=
  JValue.obj
    [("report_id", JValue.str r.report_id),
     ("created_at", JValue.str (isoformat r.created_at ++ "Z")),
     ("persona", r.persona.to_dict),
     ("question", JValue.str r.question),
     ("output_text", JValue.str r.output_text),
     ("referenced_agent_ids", JValue.arr (r.referenced_agent_ids.map JValue.str)),
     ("reasoning", JValue.arr (r.reasoning.map ReasoningStep.to_dict))]

structure WorkflowHint where
  index : Int
  name : String
  instruction : String
  expected : String
  tool : Option String := none
  metadata : List (String × JValue) := []
deriving Repr

def WorkflowHint.to_dict (h : WorkflowHint) : JValue :=
  JValue.obj (dropNullOrEmpty
    [("index", JValue.int h.index),
     ("name", JValue.str h.name),
     ("instruction", JValue.str h.instruction),
     ("expected", JValue.str h.expected),
     ("tool", jOptStr h.tool),
     ("metadata", serialize_metadata h.metadata)])

structure AgentReplayPlan where
  agent_id : String
  persona : Persona
  input_prompt : String
  expected_output : String
  skills : List String
  hints : List WorkflowHint
  graph_snapshot : List (String × JValue) := []
deriving Repr

def AgentReplayPlan.to_dict (p : AgentReplayPlan) : JValue :=
  JValue.obj
    [("agent_id", JValue.str p.agent_id),
     ("persona", p.persona.to_dict),
     ("input_prompt", JValue.str p.input_prompt),
     ("expected_output", JValue.str p.expected_output),
     ("skills", JValue.arr (p.skills.map JValue.str)),
     ("hints", JValue.arr (p.hints.map WorkflowHint.to_dict)),
     ("graph_snapshot", serialize_metadata p.graph_snapshot)]

/-- `AgentReplayPlan.from_agent`: hints enumerate the workflow with
`enumerate(..., start=1)`. -/
def AgentReplayPlan.from_agent (agent : AgentProcessRecord) : AgentReplayPlan :=
  { agent_id := agent.agent_id
    persona := agent.persona
    input_prompt := agent.input_prompt
    expected_output := agent.expected_output
    skills := agent.skills
    hints := agent.workflow.enum.map (fun p =>
      { index := (p.1 : Int) + 1
        name := p.2.name
        instruction := p.2.input_text
        expected := p.2.output_text
        tool := p.2.tool
        metadata := p.2.metadata })
    graph_snapshot := agent.graph_snapshot }

/-- `models.iter_reasoning_steps`. -/
def iter_reasoning_steps (reasoning : List ReasoningStep) : JValue :=
  JValue.arr (reasoning.map ReasoningStep.to_dict)

/-! ## ReasoningStore (`graphrag/project/reasoning_store.py`)

The SQLite table is a list of rows in rowid (insertion) order.  The
`metadata` TEXT column holds `json.dumps(step.metadata, sort_keys=True)`
when the step's metadata is truthy and NULL otherwise; the model keeps the
JSON value instead of its text (`get_reasoning` only ever `json.loads` it
back, and `if metadata:` on the column is true exactly when it is non-NULL,
since the serialized form of a non-empty dict is a non-empty string). -/

structure Row where
  scope : String
  scope_id : String
  step_index : Nat
  name : String
  input_text : String
  output_text : String
  tool : Option String
  metadata : Option JValue
deriving Repr

/-- The `reasoning` table, rows in rowid order. -/
abbrev ReasoningDB := List Row

namespace ReasoningStore

/-- `ReasoningStore.append`: no-op on an empty step sequence, otherwise one
batch insert tagging each step with its 0-based position in the call. -/
def insertedRow (scope scope_id : String) (idx : Nat) (step : ReasoningStep) :
    Row :=
  { scope := scope
    scope_id := scope_id
    step_index := idx
    name := step.name
    input_text := step.input_text
    output_text := step.output_text
    tool := step.tool
    metadata := if step.metadata.isEmpty then none
                else some (serialize_metadata step.metadata) }

def append (db : ReasoningDB) (scope scope_id : String)
    (reasoning : List ReasoningStep) : ReasoningDB :=
  if reasoning.isEmpty then db
  else db ++ reasoning.enum.map (fun p => insertedRow scope scope_id p.1 p.2)

/-- Stable insertion of a row into a list sorted by `step_index`: the new row
goes after every existing row with a smaller-or-equal index. -/
def insertByIndex (r : Row) : List Row → List Row
  | [] => [r]
  | x :: xs =>
    if x.step_index ≤ r.step_index then x :: insertByIndex r xs
    else r :: x :: xs

/-- `ORDER BY step_index ASC`, as the stable sort SQLite performs on this
single-table scan (ties come back in storage order). -/
def sortByIndex (rows : List Row) : List Row :=
  rows.foldl (fun acc r => insertByIndex r acc) []

/-- The row payload built by `get_reasoning`: the `metadata` key is added
only when the stored column is truthy (non-NULL). -/
def rowPayload (r : Row) : JValue :=
  JValue.obj
    ([("step_index", JValue.int r.step_index),
      ("name", JValue.str r.name),
      ("input_text", JValue.str r.input_text),
      ("output_text", JValue.str r.output_text),
      ("tool", jOptStr r.tool)] ++
     (match r.metadata with
      | some m => [("metadata", m)]
      | none => []))

/-- `ReasoningStore.get_reasoning`: matching rows ordered by `step_index`. -/
def get_reasoning (db : ReasoningDB) (scope scope_id : String) : List JValue :=
  (sortByIndex (db.filter (fun r => r.scope == scope && r.scope_id == scope_id))).map
    rowPayload

end ReasoningStore

/-! ## Storage (`graphrag/project/storage.py`) and the filesystem model -/

inductive FileContent where
  | json (v : JValue) : FileContent
  | text (s : String) : FileContent
deriving Repr

/-- The filesystem: an association list from path strings to contents. -/
abbrev FS := List (String × FileContent)

namespace FS

def read : FS → String → Option FileContent
  | [], _ => none
  | (q, c) :: rest, p => if q = p then some c else read rest p

def write : FS → String → FileContent → FS
  | [], p, c => [(p, c)]
  | (q, d) :: rest, p, c =>
    if q = p then (p, c) :: rest else (q, d) :: write rest p c

@[simp] theorem read_write_self (fs : FS) (p : String) (c : FileContent) :
    (fs.write p c).read p = some c := by
  induction fs with
  | nil => simp [write, read]
  | cons hd tl ih =>
    by_cases h : hd.1 = p <;> simp [write, read, h, ih]

theorem read_write_ne (fs : FS) {p q : String} (c : FileContent) (h : q ≠ p) :
    (fs.write q c).read p = fs.read p := by
  induction fs with
  | nil => simp [write, read, h]
  | cons hd tl ih =>
    by_cases h1 : hd.1 = q
    · simp [write, read, h1, h]
    · by_cases h2 : hd.1 = p <;> simp [write, read, h1, h2, ih, Ne.symm h]

end FS

/-- `storage.write_json` (the dumped text is modelled by the value itself,
see the header notes). -/
def write_json (fs : FS) (path : String) (payload : JValue) : FS :=
  fs.write path (FileContent.json payload)

/-- `storage.write_text`. -/
def write_text (fs : FS) (path : String) (content : String) : FS :=
  fs.write path (FileContent.text content)

/-- Error kinds surfaced by the manager (§7 of the spec). -/
inductive PMError where
  | notFound : PMError
  | malformedRecord : PMError
deriving DecidableEq, Repr

/-- Modelled from the spec: `read_json(path) -> mapping` is named in §6 as a
collaborator interface and is imported by `manager.py`, but the function
itself is absent from `storage.py` in the included sources.  Per §6/§7 it
reads and parses the JSON file at `path`, failing with a NotFound-style
error when the file is absent. -/
def read_json (fs : FS) (path : String) : Except PMError JValue :=
  match fs.read path with
  | some (FileContent.json v) => Except.ok v
  | some (FileContent.text _) => Except.error PMError.malformedRecord
  | none => Except.error PMError.notFound

/-! ## ProjectFolderManager (`graphrag/project/manager.py`)

State is the filesystem plus the per-project reasoning databases (keyed by
the path of their `reasoning.db`).  Paths are strings relative to the
manager's root directory, joined with `"/"` exactly as `pathlib` would
print them.  `datetime.utcnow()` and `uuid4().hex[:6]` become the explicit
`now` / `uuid_hex6` arguments.  Operations that re-read previously written
JSON (`_update_index`, `load_agent`) return `Except PMError` because the
Python code raises when a read fails or a stored value has an impossible
shape. -/

structure PState where
  fs : FS := []
  dbs : List (String × ReasoningDB) := []

namespace PState

def getDb (dbs : List (String × ReasoningDB)) (p : String) : Option ReasoningDB :=
  match dbs with
  | [] => none
  | (q, db) :: rest => if q = p then some db else getDb rest p

def setDb (dbs : List (String × ReasoningDB)) (p : String) (db : ReasoningDB) :
    List (String × ReasoningDB) :=
  match dbs with
  | [] => [(p, db)]
  | (q, d) :: rest => if q = p then (p, db) :: rest else (q, d) :: setDb rest p db

end PState

/-- `ReasoningStore.initialise`: `CREATE TABLE IF NOT EXISTS` — the database
file comes to exist, with its current rows (or none) kept. -/
def initialiseDb (dbs : List (String × ReasoningDB)) (p : String) :
    List (String × ReasoningDB) :=
  match PState.getDb dbs p with
  | some _ => dbs
  | none => PState.setDb dbs p []

/-- Append a batch of steps to the reasoning database at `p` (the
`initialise`-then-`append` sequence the manager always performs). -/
def appendDb (dbs : List (String × ReasoningDB)) (p : String)
    (scope scope_id : String) (reasoning : List ReasoningStep) :
    List (String × ReasoningDB) :=
  let dbs := initialiseDb dbs p
  let db := (PState.getDb dbs p).getD []
  PState.setDb dbs p (ReasoningStore.append db scope scope_id reasoning)

/-- Python dict assignment `d[k] = v`: replace in place or append. -/
def objSet (fields : List (String × JValue)) (k : String) (v : JValue) :
    List (String × JValue) :=
  match fields with
  | [] => [(k, v)]
  | (k', v') :: rest =>
    if k' = k then (k, v) :: rest else (k', v') :: objSet rest k v

namespace ProjectFolderManager

/-- `ProjectFolderManager.create_project`: ensures directories and the
reasoning table exist, writes `project.json` and `index.json` only when
absent. -/
def create_project (st : PState) (project_name : String) (now : DateTime) :
    PState :=
  let pp := project_name
  let dbs := initialiseDb st.dbs (pp ++ "/reasoning.db")
  let fs := st.fs
  let fs :=
    if (fs.read (pp ++ "/project.json")).isSome then fs
    else
      write_json fs (pp ++ "/project.json")
        (JValue.obj
          [("project_name", JValue.str project_name),
           ("created_at", JValue.str (isoformat now ++ "Z"))])
  let fs :=
    if (fs.read (pp ++ "/index.json")).isSome then fs
    else
      write_json fs (pp ++ "/index.json")
        (JValue.obj
          [("chats", JValue.obj []),
           ("agents", JValue.obj []),
           ("reports", JValue.obj [])])
  { fs := fs, dbs := dbs }

/-- `ProjectFolderManager._build_chat_identifier`. -/
def build_chat_identifier (record : ChatSessionRecord) (uuid_hex6 : String) :
    String :=
  let timestamp :=
    String.mk ((isoformat record.created_at).data.filter
      (fun c => c != ':' && c != '-'))
  let persona_slug :=
    String.mk ((record.persona.name.data.map Char.toLower).map
      (fun c => if c = ' ' then '-' else c))
  timestamp ++ "-" ++ persona_slug ++ "-" ++ uuid_hex6

/-- The identifier `ingest_chat` settles on: `record.chat_id or
self._build_chat_identifier(record)` (an empty string is falsy). -/
def canonical_chat_id (record : ChatSessionRecord) (uuid_hex6 : String) :
    String :=
  match record.chat_id with
  | some cid => if cid = "" then build_chat_identifier record uuid_hex6 else cid
  | none => build_chat_identifier record uuid_hex6

/-- `ProjectFolderManager._update_index`: whole-file read-modify-write of
`index.json`.  `setdefault(section, {})` followed by in-place assignment.
Fails when an existing index file does not hold a JSON object (Python would
raise while decoding or subscripting). -/
def update_index (fs : FS) (pp sec identifier : String)
    (payload : JValue) : Except PMError FS :=
  let index_path := pp ++ "/index.json"
  let index_data? : Except PMError (List (String × JValue)) :=
    match fs.read index_path with
    | some (FileContent.json (JValue.obj fields)) => Except.ok fields
    | some _ => Except.error PMError.malformedRecord
    | none =>
      Except.ok
        [("chats", JValue.obj []), ("agents", JValue.obj []),
         ("reports", JValue.obj [])]
  match index_data? with
  | Except.error e => Except.error e
  | Except.ok index_data =>
    match JValue.lookupField sec index_data with
    | some (JValue.obj section_fields) =>
      Except.ok (write_json fs index_path
        (JValue.obj (objSet index_data sec
          (JValue.obj (objSet section_fields identifier payload)))))
    | some _ => Except.error PMError.malformedRecord
    | none =>
      Except.ok (write_json fs index_path
        (JValue.obj (index_data ++
          [(sec, JValue.obj [(identifier, payload)])])))

/-- `ProjectFolderManager._persist_agent_record`: agent JSON plus an index
entry under `"agents"`. -/
def persist_agent_record (fs : FS) (pp : String)
    (record : AgentProcessRecord) : Except PMError FS :=
  let fs := write_json fs (pp ++ "/agents/" ++ record.agent_id ++ ".json")
    record.to_dict
  update_index fs pp "agents" record.agent_id
    (JValue.obj
      [("source_chat_id", JValue.str record.source_chat_id),
       ("persona", record.persona.to_dict),
       ("skills", JValue.arr (record.skills.map JValue.str)),
       ("created_at", JValue.str (isoformat record.created_at ++ "Z"))])

/-- `ProjectFolderManager.ingest_chat`. -/
def ingest_chat (st : PState) (project_name : String)
    (record : ChatSessionRecord) (now : DateTime) (uuid_hex6 : String) :
    Except PMError (PState × AgentProcessRecord) := do
  let st := create_project st project_name now
  let pp := project_name
  let chat_identifier := canonical_chat_id record uuid_hex6
  let chat_dir := pp ++ "/chats/" ++ chat_identifier
  let canonical_record := { record with chat_id := some chat_identifier }
  let fs := write_json st.fs (chat_dir ++ "/metadata.json")
    canonical_record.to_dict
  let fs := write_text fs (chat_dir ++ "/input.txt")
    canonical_record.input_prompt
  let fs := write_text fs (chat_dir ++ "/output.txt")
    canonical_record.output_text
  let fs :=
    if canonical_record.graph_snapshot.isEmpty then fs
    else write_json fs (chat_dir ++ "/graph.json")
      (serialize_metadata canonical_record.graph_snapshot)
  let fs :=
    if canonical_record.reasoning.isEmpty then fs
    else write_json fs (chat_dir ++ "/reasoning.json")
      (iter_reasoning_steps canonical_record.reasoning)
  let dbs := appendDb st.dbs (pp ++ "/reasoning.db") "chat" chat_identifier
    canonical_record.reasoning
  let chat_index_payload := JValue.obj
    ([("persona", canonical_record.persona.to_dict),
      ("skills_used", JValue.arr (canonical_record.skills_used.map JValue.str)),
      ("created_at", JValue.str (isoformat canonical_record.created_at ++ "Z")),
      ("input_path", JValue.str ("chats/" ++ chat_identifier ++ "/input.txt")),
      ("output_path", JValue.str ("chats/" ++ chat_identifier ++ "/output.txt"))] ++
     (if canonical_record.reasoning.isEmpty then []
      else [("reasoning_path",
        JValue.str ("chats/" ++ chat_identifier ++ "/reasoning.json"))]) ++
     (if canonical_record.graph_snapshot.isEmpty then []
      else [("graph_path",
        JValue.str ("chats/" ++ chat_identifier ++ "/graph.json"))]))
  let fs ← update_index fs pp "chats" chat_identifier chat_index_payload
  let agent_record : AgentProcessRecord :=
    { agent_id := "agent-" ++ chat_identifier
      source_chat_id := chat_identifier
      persona := canonical_record.persona
      skills := canonical_record.skills_used
      workflow := canonical_record.reasoning
      input_prompt := canonical_record.input_prompt
      expected_output := canonical_record.output_text
      created_at := now
      graph_snapshot := canonical_record.graph_snapshot }
  let fs ← persist_agent_record fs pp agent_record
  Except.ok ({ fs := fs, dbs := dbs }, agent_record)

/-- `ProjectFolderManager.promote_report_to_agent`. -/
def promote_report_to_agent (st : PState) (project_name : String)
    (report : ReportSynthesisRecord) (new_agent_id : Option String)
    (now : DateTime) : Except PMError (PState × AgentProcessRecord) := do
  let st := create_project st project_name now
  let pp := project_name
  let report_dir := pp ++ "/reports/" ++ report.report_id
  let fs := write_json st.fs (report_dir ++ "/report.json") report.to_dict
  let fs := write_text fs (report_dir ++ "/question.txt") report.question
  let fs := write_text fs (report_dir ++ "/output.txt") report.output_text
  let fs :=
    if report.reasoning.isEmpty then fs
    else write_json fs (report_dir ++ "/reasoning.json")
      (iter_reasoning_steps report.reasoning)
  let dbs := appendDb st.dbs (pp ++ "/reasoning.db") "report" report.report_id
    report.reasoning
  let report_index_payload := JValue.obj
    ([("persona", report.persona.to_dict),
      ("question", JValue.str report.question),
      ("referenced_agents",
        JValue.arr (report.referenced_agent_ids.map JValue.str)),
      ("created_at", JValue.str (isoformat report.created_at ++ "Z")),
      ("output_path",
        JValue.str ("reports/" ++ report.report_id ++ "/output.txt"))] ++
     (if report.reasoning.isEmpty then []
      else [("reasoning_path",
        JValue.str ("reports/" ++ report.report_id ++ "/reasoning.json"))]))
  let fs ← update_index fs pp "reports" report.report_id report_index_payload
  let agent_identifier :=
    match new_agent_id with
    | some aid => if aid = "" then "agent-report-" ++ report.report_id else aid
    | none => "agent-report-" ++ report.report_id
  let agent_record : AgentProcessRecord :=
    { agent_id := agent_identifier
      source_chat_id := report.report_id
      persona := report.persona
      skills := report.referenced_agent_ids
      workflow := report.reasoning
      input_prompt := report.question
      expected_output := report.output_text
      created_at := now }
  let fs ← persist_agent_record fs pp agent_record
  Except.ok ({ fs := fs, dbs := dbs }, agent_record)

end ProjectFolderManager

/-! ## Deserialization (`_deserialize_agent_record`, `_parse_timestamp`) -/

/-- `ProjectFolderManager._parse_timestamp`: strip one trailing `"Z"`, then
`datetime.fromisoformat`. -/
def parse_timestamp (s : String) : Option DateTime :=
  let core :=
    if s.data.getLast? = some 'Z' then String.mk s.data.dropLast else s
  fromisoformat core

theorem parse_timestamp_isoZ (t : DateTime) :
    parse_timestamp (isoformat t ++ "Z") = some t := by
  have hdata : (isoformat t ++ "Z").data = (isoformat t).data ++ ['Z'] :=
    String.data_append _ _
  have hmk : String.mk (isoformat t).data = isoformat t := by
    cases h : isoformat t
    rfl
  unfold parse_timestamp
  rw [hdata]
  simp only [List.getLast?_concat, List.dropLast_concat, if_pos rfl, hmk]
  exact fromisoformat_isoformat t

/-- `data[k]` — a `KeyError` surfaces as a malformed-record failure. -/
def requireKey (data : JValue) (k : String) : Except PMError JValue :=
  match data.getKey k with
  | some v => Except.ok v
  | none => Except.error PMError.malformedRecord

/-- A required field that the code goes on to use as a string. -/
def requireStr (data : JValue) (k : String) : Except PMError String :=
  match data.getKey k with
  | some (JValue.str s) => Except.ok s
  | _ => Except.error PMError.malformedRecord

/-- `payload.get(k)` used as an optional string (absent or `null` → `None`). -/
def optionalStr (data : JValue) (k : String) : Except PMError (Option String) :=
  match data.getKey k with
  | none => Except.ok none
  | some JValue.null => Except.ok none
  | some (JValue.str s) => Except.ok (some s)
  | some _ => Except.error PMError.malformedRecord

/-- `payload.get(k, {})` used as a mapping. -/
def optionalObj (data : JValue) (k : String) :
    Except PMError (List (String × JValue)) :=
  match data.getKey k with
  | none => Except.ok []
  | some (JValue.obj fields) => Except.ok fields
  | some _ => Except.error PMError.malformedRecord

/-- Elementwise reading of a JSON array of strings (`list(data.get(k, []))`
whose elements the code treats as strings). -/
def decodeStrList : List JValue → Except PMError (List String)
  | [] => Except.ok []
  | JValue.str s :: rest =>
    match decodeStrList rest with
    | Except.ok tail => Except.ok (s :: tail)
    | Except.error e => Except.error e
  | _ :: _ => Except.error PMError.malformedRecord

/-- `data.get(k, [])` used as a list of strings. -/
def optionalStrList (data : JValue) (k : String) :
    Except PMError (List String) :=
  match data.getKey k with
  | none => Except.ok []
  | some (JValue.arr xs) => decodeStrList xs
  | some _ => Except.error PMError.malformedRecord

/-- One workflow entry: `step["name"]`, `step["input_text"]`,
`step["output_text"]`, `step.get("tool")`, `step.get("metadata", {})`. -/
def decodeStep (v : JValue) : Except PMError ReasoningStep := do
  let name ← requireStr v "name"
  let input_text ← requireStr v "input_text"
  let output_text ← requireStr v "output_text"
  let tool ← optionalStr v "tool"
  let metadata ← optionalObj v "metadata"
  Except.ok
    { name := name, input_text := input_text, output_text := output_text
      tool := tool, metadata := metadata }

def decodeSteps : List JValue → Except PMError (List ReasoningStep)
  | [] => Except.ok []
  | v :: rest => do
    let s ← decodeStep v
    let tail ← decodeSteps rest
    Except.ok (s :: tail)

/-- `data["persona"]` decoded as in `_deserialize_agent_record`. -/
def decodePersona (payload : JValue) : Except PMError Persona := do
  let name ← requireStr payload "name"
  let description ← optionalStr payload "description"
  let metadata ← optionalObj payload "metadata"
  Except.ok { name := name, description := description, metadata := metadata }

namespace ProjectFolderManager

/-- `ProjectFolderManager._deserialize_agent_record`.  `now` stands for the
`datetime.utcnow()` the dataclass default falls back to when `created_at`
is absent or not a string. -/
def deserialize_agent_record (data : JValue) (now : DateTime) :
    Except PMError AgentProcessRecord := do
  let persona_payload ← requireKey data "persona"
  let persona ← decodePersona persona_payload
  let workflow ←
    match data.getKey "workflow" with
    | none => Except.ok []
    | some (JValue.arr xs) => decodeSteps xs
    | some _ => Except.error PMError.malformedRecord
  let created_at? ←
    match data.getKey "created_at" with
    | some (JValue.str s) =>
      match parse_timestamp s with
      | some t => Except.ok (some t)
      | none => Except.error PMError.malformedRecord
    | _ => Except.ok (none : Option DateTime)
  let agent_id ← requireStr data "agent_id"
  let source_chat_id ← requireStr data "source_chat_id"
  let skills ← optionalStrList data "skills"
  let input_prompt ← requireStr data "input_prompt"
  let expected_output ← requireStr data "expected_output"
  let graph_snapshot ← optionalObj data "graph_snapshot"
  Except.ok
    { agent_id := agent_id
      source_chat_id := source_chat_id
      persona := persona
      skills := skills
      workflow := workflow
      input_prompt := input_prompt
      expected_output := expected_output
      created_at := created_at?.getD now
      graph_snapshot := graph_snapshot }

/-- `ProjectFolderManager.load_agent`: `create_project`, then read and
deserialize `agents/<agent_id>.json`. -/
def load_agent (st : PState) (project_name agent_id : String)
    (now : DateTime) : Except PMError AgentProcessRecord := do
  let st := create_project st project_name now
  let agent_path := project_name ++ "/agents/" ++ agent_id ++ ".json"
  let data ← read_json st.fs agent_path
  deserialize_agent_record data now

/-- `ProjectFolderManager.build_replay_plan`. -/
def build_replay_plan (st : PState) (project_name agent_id : String)
    (now : DateTime) : Except PMError AgentReplayPlan := do
  let agent_record ← load_agent st project_name agent_id now
  Except.ok (AgentReplayPlan.from_agent agent_record)

end ProjectFolderManager

/-! ## Round-trip lemmas: `to_dict` then `_deserialize_agent_record` -/

theorem decodePersona_to_dict (p : Persona) :
    decodePersona p.to_dict = Except.ok p := by
  cases p with
  | mk name description metadata =>
    cases description <;> cases metadata <;>
      simp [Persona.to_dict, dropNullOrEmpty, serialize_metadata, jOptStr,
        JValue.isNullOrEmptyObj, decodePersona, requireStr, optionalStr,
        optionalObj, JValue.getKey, JValue.lookupField, List.filter,
        Except.bind, bind]

theorem decodeStep_to_dict (s : ReasoningStep) :
    decodeStep s.to_dict = Except.ok s := by
  cases s with
  | mk name input_text output_text tool metadata =>
    cases tool <;> cases metadata <;>
      simp [ReasoningStep.to_dict, dropNullOrEmpty, serialize_metadata,
        jOptStr, JValue.isNullOrEmptyObj, decodeStep, requireStr, optionalStr,
        optionalObj, JValue.getKey, JValue.lookupField, List.filter,
        Except.bind, bind]

theorem decodeSteps_map_to_dict (l : List ReasoningStep) :
    decodeSteps (l.map ReasoningStep.to_dict) = Except.ok l := by
  induction l with
  | nil => rfl
  | cons s rest ih =>
    simp [decodeSteps, decodeStep_to_dict, ih, Except.bind, bind]

theorem decodeStrList_map_str (l : List String) :
    decodeStrList (l.map JValue.str) = Except.ok l := by
  induction l with
  | nil => rfl
  | cons s rest ih => simp [decodeStrList, ih]

theorem deserialize_agent_to_dict (r : AgentProcessRecord) (now : DateTime) :
    ProjectFolderManager.deserialize_agent_record r.to_dict now =
      Except.ok r := by
  cases r with
  | mk agent_id source_chat_id persona skills workflow input_prompt
      expected_output created_at graph_snapshot =>
    simp [AgentProcessRecord.to_dict, ProjectFolderManager.deserialize_agent_record,
      requireKey, requireStr, optionalStr, optionalObj, optionalStrList,
      JValue.getKey, JValue.lookupField, serialize_metadata,
      decodePersona_to_dict, decodeSteps_map_to_dict, decodeStrList_map_str,
      parse_timestamp_isoZ, Except.bind, bind]

/-! ## Path disjointness helpers

Every artifact path is `project_name` followed by a suffix starting in
`/project.json`, `/index.json`, `/chats/…`, `/agents/…` or `/reports/…`;
any two of those families differ at the character after the slash. -/

theorem append_data_getElem? (p x : String) (i : Nat) :
    (p ++ x).data[p.length + i]? = x.data[i]? := by
  rw [String.data_append]
  have hl : p.length = p.data.length := rfl
  rw [hl, List.getElem?_append_right (Nat.le_add_right _ _)]
  simp

theorem path_ne_of_get1 (p : String) {a b : String}
    (h : a.data[1]? ≠ b.data[1]?) : p ++ a ≠ p ++ b := by
  intro e
  apply h
  have h1 := append_data_getElem? p a 1
  have h2 := append_data_getElem? p b 1
  rw [← h1, ← h2, e]

theorem manifest_ne_index (pp : String) :
    pp ++ "/project.json" ≠ pp ++ "/index.json" :=
  path_ne_of_get1 pp (by decide)

theorem chats_ne_manifest (pp x : String) :
    pp ++ "/chats/" ++ x ≠ pp ++ "/project.json" := by
  rw [String.append_assoc]
  apply path_ne_of_get1 pp
  have h1 : ("/chats/" ++ x).data[1]? = some 'c' := by rw [String.data_append]; rfl
  rw [h1]; decide

theorem chats_ne_index (pp x : String) :
    pp ++ "/chats/" ++ x ≠ pp ++ "/index.json" := by
  rw [String.append_assoc]
  apply path_ne_of_get1 pp
  have h1 : ("/chats/" ++ x).data[1]? = some 'c' := by rw [String.data_append]; rfl
  rw [h1]; decide

theorem agents_ne_manifest (pp x : String) :
    pp ++ "/agents/" ++ x ≠ pp ++ "/project.json" := by
  rw [String.append_assoc]
  apply path_ne_of_get1 pp
  have h1 : ("/agents/" ++ x).data[1]? = some 'a' := by rw [String.data_append]; rfl
  rw [h1]; decide

theorem agents_ne_index (pp x : String) :
    pp ++ "/agents/" ++ x ≠ pp ++ "/index.json" := by
  rw [String.append_assoc]
  apply path_ne_of_get1 pp
  have h1 : ("/agents/" ++ x).data[1]? = some 'a' := by rw [String.data_append]; rfl
  rw [h1]; decide

theorem reports_ne_manifest (pp x : String) :
    pp ++ "/reports/" ++ x ≠ pp ++ "/project.json" := by
  rw [String.append_assoc]
  apply path_ne_of_get1 pp
  have h1 : ("/reports/" ++ x).data[1]? = some 'r' := by rw [String.data_append]; rfl
  rw [h1]; decide

theorem reports_ne_index (pp x : String) :
    pp ++ "/reports/" ++ x ≠ pp ++ "/index.json" := by
  rw [String.append_assoc]
  apply path_ne_of_get1 pp
  have h1 : ("/reports/" ++ x).data[1]? = some 'r' := by rw [String.data_append]; rfl
  rw [h1]; decide

/-! ## Effect lemmas for the manager's filesystem writes -/

namespace ProjectFolderManager

theorem create_project_read_other (st : PState) (pn : String) (t : DateTime)
    (q : String) (h1 : q ≠ pn ++ "/project.json")
    (h2 : q ≠ pn ++ "/index.json") :
    (create_project st pn t).fs.read q = st.fs.read q := by
  unfold create_project write_json
  dsimp only
  split_ifs <;>
    simp [FS.read_write_ne _ _ (Ne.symm h1), FS.read_write_ne _ _ (Ne.symm h2)]

theorem create_project_manifest_isSome (st : PState) (pn : String)
    (t : DateTime) :
    ((create_project st pn t).fs.read (pn ++ "/project.json")).isSome := by
  unfold create_project write_json
  dsimp only
  split_ifs with h1 h2 h2 <;>
    simp_all [FS.read_write_ne _ _ (Ne.symm (manifest_ne_index pn))]

theorem create_project_index_isSome (st : PState) (pn : String)
    (t : DateTime) :
    ((create_project st pn t).fs.read (pn ++ "/index.json")).isSome := by
  unfold create_project write_json
  dsimp only
  split_ifs with h1 h2 h2 <;> simp_all

theorem create_project_fs_of_present (st : PState) (pn : String)
    (t : DateTime)
    (h1 : (st.fs.read (pn ++ "/project.json")).isSome)
    (h2 : (st.fs.read (pn ++ "/index.json")).isSome) :
    (create_project st pn t).fs = st.fs := by
  unfold create_project
  simp [h1, h2]

theorem update_index_ok_shape (fs : FS) (pp sec identifier : String)
    (payload : JValue) (fs' : FS)
    (h : update_index fs pp sec identifier payload = Except.ok fs') :
    ∃ v, fs' = write_json fs (pp ++ "/index.json") v := by
  unfold update_index at h
  dsimp only at h
  split at h
  · exact absurd h (by simp)
  · split at h
    · exact ⟨_, (Except.ok.injEq _ _ ▸ h).symm⟩
    · exact absurd h (by simp)
    · exact ⟨_, (Except.ok.injEq _ _ ▸ h).symm⟩

theorem update_index_ok_read_ne (fs : FS) (pp sec identifier : String)
    (payload : JValue) (fs' : FS) (q : String)
    (h : update_index fs pp sec identifier payload = Except.ok fs')
    (hq : q ≠ pp ++ "/index.json") :
    fs'.read q = fs.read q := by
  obtain ⟨v, rfl⟩ := update_index_ok_shape fs pp sec identifier payload fs' h
  exact FS.read_write_ne _ _ (Ne.symm hq)

theorem update_index_ok_index_isSome (fs : FS) (pp sec identifier : String)
    (payload : JValue) (fs' : FS)
    (h : update_index fs pp sec identifier payload = Except.ok fs') :
    (fs'.read (pp ++ "/index.json")).isSome := by
  obtain ⟨v, rfl⟩ := update_index_ok_shape fs pp sec identifier payload fs' h
  simp [write_json]

theorem persist_agent_record_ok_reads (fs : FS) (pp : String)
    (record : AgentProcessRecord) (fs' : FS)
    (h : persist_agent_record fs pp record = Except.ok fs') :
    fs'.read (pp ++ "/agents/" ++ record.agent_id ++ ".json")
        = some (FileContent.json record.to_dict) ∧
    (fs'.read (pp ++ "/index.json")).isSome ∧
    ∀ q, q ≠ pp ++ "/index.json" →
      q ≠ pp ++ "/agents/" ++ record.agent_id ++ ".json" →
      fs'.read q = fs.read q := by
  unfold persist_agent_record at h
  dsimp only at h
  have hpath : pp ++ "/agents/" ++ record.agent_id ++ ".json"
      = pp ++ "/agents/" ++ (record.agent_id ++ ".json") := by
    rw [String.append_assoc]
  rw [hpath] at h ⊢
  refine ⟨?_, update_index_ok_index_isSome _ _ _ _ _ _ h, ?_⟩
  · rw [update_index_ok_read_ne _ _ _ _ _ _ _ h
      (agents_ne_index pp (record.agent_id ++ ".json"))]
    exact FS.read_write_self _ _ _
  · intro q hq1 hq2
    rw [update_index_ok_read_ne _ _ _ _ _ _ _ h hq1]
    exact FS.read_write_ne _ _ (Ne.symm hq2)

end ProjectFolderManager

/-! ## Claims -/

/-- **C8**: for every `AgentProcessRecord`, the `AgentReplayPlan` derived by
`from_agent` has exactly as many hints as the record has workflow steps, and
at every 0-based position `i` the hint carries `index = i + 1`,
`instruction = workflow[i].input_text` and `expected = workflow[i].output_text`. -/
theorem c8_from_agent_hints (agent : AgentProcessRecord) :
    (AgentReplayPlan.from_agent agent).hints.length = agent.workflow.length ∧
    ∀ i, i < agent.workflow.length →
      ∃ hint step,
        (AgentReplayPlan.from_agent agent).hints[i]? = some hint ∧
        agent.workflow[i]? = some step ∧
        hint.index = (i : Int) + 1 ∧
        hint.instruction = step.input_text ∧
        hint.expected = step.output_text := by
  constructor
  · simp [AgentReplayPlan.from_agent, List.enum_length]
  · intro i hi
    have hstep : agent.workflow[i]? = some agent.workflow[i] :=
      List.getElem?_eq_getElem hi
    refine ⟨{ index := (i : Int) + 1
              name := agent.workflow[i].name
              instruction := agent.workflow[i].input_text
              expected := agent.workflow[i].output_text
              tool := agent.workflow[i].tool
              metadata := agent.workflow[i].metadata },
      agent.workflow[i], ?_, hstep, rfl, rfl, rfl⟩
    simp [AgentReplayPlan.from_agent, List.getElem?_enum, hstep]

/-- Witness for **C8** at an agent with a two-step workflow. -/
theorem c8_from_agent_hints_witness :
    ∃ hint step,
      (AgentReplayPlan.from_agent
        { agent_id := "agent-chat-1", source_chat_id := "chat-1"
          persona := { name := "Analyst" }, skills := ["sql_query"]
          workflow :=
            [{ name := "s0", input_text := "in0", output_text := "out0" },
             { name := "s1", input_text := "in1", output_text := "out1" }]
          input_prompt := "p", expected_output := "o"
          created_at := 5 }).hints[1]? = some hint ∧
      ([{ name := "s0", input_text := "in0", output_text := "out0" },
        { name := "s1", input_text := "in1", output_text := "out1" }] :
          List ReasoningStep)[1]? = some step ∧
      hint.index = ((1 : Nat) : Int) + 1 ∧
      hint.instruction = step.input_text ∧
      hint.expected = step.output_text :=
  (c8_from_agent_hints
    { agent_id := "agent-chat-1", source_chat_id := "chat-1"
      persona := { name := "Analyst" }, skills := ["sql_query"]
      workflow :=
        [{ name := "s0", input_text := "in0", output_text := "out0" },
         { name := "s1", input_text := "in1", output_text := "out1" }]
      input_prompt := "p", expected_output := "o"
      created_at := 5 }).2 1 (by decide)

/-- **C9**: `append(scope, scope_id, [])` inserts nothing and returns
successfully, so the database value — and hence every `get_reasoning`
result — is exactly what it was before the call. -/
theorem c9_append_empty_is_noop (db : ReasoningDB) (scope scope_id : String) :
    ReasoningStore.append db scope scope_id [] = db ∧
    ∀ s i, ReasoningStore.get_reasoning
        (ReasoningStore.append db scope scope_id []) s i
      = ReasoningStore.get_reasoning db s i := by
  refine ⟨rfl, fun s i => rfl⟩

/-- Filtering for the scope/scope_id an `append` targeted recovers the old
matching rows followed by the freshly inserted batch verbatim. -/
theorem filter_append_batch (db : ReasoningDB) (scope scope_id : String)
    (steps : List ReasoningStep) :
    (ReasoningStore.append db scope scope_id steps).filter
        (fun r => r.scope == scope && r.scope_id == scope_id)
      = db.filter (fun r => r.scope == scope && r.scope_id == scope_id) ++
        steps.enum.map (fun p => ReasoningStore.insertedRow scope scope_id p.1 p.2) := by
  unfold ReasoningStore.append
  split
  · next hempty =>
    rw [List.isEmpty_iff.mp hempty]
    simp
  · rw [List.filter_append]
    congr 1
    apply List.filter_eq_self.mpr
    intro r hr
    obtain ⟨p, _, rfl⟩ := List.mem_map.mp hr
    simp [ReasoningStore.insertedRow]

/-- **C5**: steps `S0`, `S1` appended under one scope/scope_id come back from
`get_reasoning` with `S0` before `S1`, whether they were inserted in a single
batch (`step_index` 0 and 1) or in two separate `append` calls (both
`step_index` 0, ties returned in insertion order). -/
theorem c5_get_reasoning_preserves_order (db : ReasoningDB)
    (scope scope_id : String) (s0 s1 : ReasoningStep)
    (h : db.filter (fun r => r.scope == scope && r.scope_id == scope_id) = []) :
    ReasoningStore.get_reasoning
        (ReasoningStore.append db scope scope_id [s0, s1]) scope scope_id
      = [ReasoningStore.rowPayload (ReasoningStore.insertedRow scope scope_id 0 s0),
         ReasoningStore.rowPayload (ReasoningStore.insertedRow scope scope_id 1 s1)] ∧
    ReasoningStore.get_reasoning
        (ReasoningStore.append (ReasoningStore.append db scope scope_id [s0])
          scope scope_id [s1]) scope scope_id
      = [ReasoningStore.rowPayload (ReasoningStore.insertedRow scope scope_id 0 s0),
         ReasoningStore.rowPayload (ReasoningStore.insertedRow scope scope_id 0 s1)] := by
  constructor
  · unfold ReasoningStore.get_reasoning
    rw [filter_append_batch db scope scope_id [s0, s1], h]
    rfl
  · unfold ReasoningStore.get_reasoning
    rw [filter_append_batch _ scope scope_id [s1],
      filter_append_batch db scope scope_id [s0], h]
    rfl

/-- Witness for **C5** on an empty store with two concrete steps. -/
theorem c5_get_reasoning_preserves_order_witness :
    ([] : ReasoningDB).filter
        (fun r => r.scope == "chat" && r.scope_id == "c1") = [] ∧
    ReasoningStore.get_reasoning
        (ReasoningStore.append [] "chat" "c1"
          [{ name := "s0", input_text := "in0", output_text := "out0" },
           { name := "s1", input_text := "in1", output_text := "out1" }])
        "chat" "c1"
      = [ReasoningStore.rowPayload (ReasoningStore.insertedRow "chat" "c1" 0
           { name := "s0", input_text := "in0", output_text := "out0" }),
         ReasoningStore.rowPayload (ReasoningStore.insertedRow "chat" "c1" 1
           { name := "s1", input_text := "in1", output_text := "out1" })] :=
  ⟨rfl,
    (c5_get_reasoning_preserves_order [] "chat" "c1"
      { name := "s0", input_text := "in0", output_text := "out0" }
      { name := "s1", input_text := "in1", output_text := "out1" } rfl).1⟩

/-- **C10** (implicit): a step whose metadata is the empty map is stored with
a NULL `metadata` column, and `get_reasoning` returns its payload with no
`"metadata"` key at all.  A step appended "with absent metadata" is the very
same value — the dataclass default for `metadata` is the empty map — so the
two are indistinguishable on retrieval. -/
theorem c10_empty_metadata_stored_null (db : ReasoningDB)
    (scope scope_id nm it ot : String) (tool : Option String)
    (h : db.filter (fun r => r.scope == scope && r.scope_id == scope_id) = []) :
    ReasoningStore.append db scope scope_id
        [{ name := nm, input_text := it, output_text := ot, tool := tool,
           metadata := [] }]
      = db ++ [{ scope := scope, scope_id := scope_id, step_index := 0,
                 name := nm, input_text := it, output_text := ot,
                 tool := tool, metadata := none }] ∧
    ReasoningStore.get_reasoning
        (ReasoningStore.append db scope scope_id
          [{ name := nm, input_text := it, output_text := ot, tool := tool,
             metadata := [] }]) scope scope_id
      = [JValue.obj
          [("step_index", JValue.int 0), ("name", JValue.str nm),
           ("input_text", JValue.str it), ("output_text", JValue.str ot),
           ("tool", jOptStr tool)]] := by
  constructor
  · rfl
  · unfold ReasoningStore.get_reasoning
    rw [filter_append_batch, h]
    rfl

/-- Witness for **C10** on an empty store. -/
theorem c10_empty_metadata_stored_null_witness :
    ([] : ReasoningDB).filter
        (fun r => r.scope == "chat" && r.scope_id == "c2") = [] ∧
    ReasoningStore.get_reasoning
        (ReasoningStore.append [] "chat" "c2"
          [{ name := "s", input_text := "i", output_text := "o",
             tool := some "mock_tool", metadata := [] }]) "chat" "c2"
      = [JValue.obj
          [("step_index", JValue.int 0), ("name", JValue.str "s"),
           ("input_text", JValue.str "i"), ("output_text", JValue.str "o"),
           ("tool", jOptStr (some "mock_tool"))]] :=
  ⟨rfl,
    (c10_empty_metadata_stored_null [] "chat" "c2" "s" "i" "o"
      (some "mock_tool") rfl).2⟩

theorem lookupField_dropNullOrEmpty {k : String} {v : JValue}
    {l : List (String × JValue)}
    (h : JValue.lookupField k (dropNullOrEmpty l) = some v) :
    v.isNullOrEmptyObj = false := by
  induction l with
  | nil => simp [dropNullOrEmpty, JValue.lookupField] at h
  | cons kv rest ih =>
    rw [dropNullOrEmpty, List.filter_cons] at h
    by_cases hkeep : kv.2.isNullOrEmptyObj
    · rw [if_neg (by simp [hkeep])] at h
      exact ih h
    · rw [if_pos (by simp [hkeep])] at h
      rw [JValue.lookupField] at h
      by_cases hk : kv.1 = k
      · rw [if_pos hk] at h
        cases h
        simpa using hkeep
      · rw [if_neg hk] at h
        exact ih h

theorem lookupField_some_mem {k : String} {v : JValue}
    {l : List (String × JValue)} (h : JValue.lookupField k l = some v) :
    v ∈ l.map Prod.snd := by
  induction l with
  | nil => simp [JValue.lookupField] at h
  | cons kv rest ih =>
    rw [JValue.lookupField] at h
    by_cases hk : kv.1 = k
    · rw [if_pos hk] at h
      cases h
      simp
    · rw [if_neg hk] at h
      exact List.mem_cons_of_mem _ (ih h)

theorem persona_to_dict_not_null_or_empty (p : Persona) :
    p.to_dict.isNullOrEmptyObj = false := rfl

/-- **C4**, counterexample: a `ChatSessionRecord` with no `chat_id` encodes
`"chat_id"` bound to `None` — `ChatSessionRecord.to_dict` (like
`AgentProcessRecord`, `ReportSynthesisRecord` and `AgentReplayPlan`) performs
no omit-when-null/empty filtering, so the claim fails for it. -/
theorem c4_counterexample_chat_id_null :
    JValue.getKey
      (ChatSessionRecord.to_dict
        { persona := { name := "Analyst" }, skills_used := [],
          input_prompt := "p", output_text := "o", reasoning := [],
          created_at := 0 }) "chat_id"
      = some JValue.null := rfl

/-- **C4**, amended: the omit-null/empty encoding rule holds for the record
types whose `to_dict` filters its fields — `Persona`, `ReasoningStep` and
`WorkflowHint` — and (vacuously) for `ReportSynthesisRecord`, which has no
null- or empty-map-valued key; `ChatSessionRecord`, `AgentProcessRecord` and
`AgentReplayPlan` instead encode every key unconditionally, including a
`None` `chat_id` and an empty `graph_snapshot` map. -/
theorem c4_amended_to_dict_omits_null_empty :
    (∀ (p : Persona) (k : String) (v : JValue),
      JValue.getKey p.to_dict k = some v → v.isNullOrEmptyObj = false) ∧
    (∀ (s : ReasoningStep) (k : String) (v : JValue),
      JValue.getKey s.to_dict k = some v → v.isNullOrEmptyObj = false) ∧
    (∀ (w : WorkflowHint) (k : String) (v : JValue),
      JValue.getKey w.to_dict k = some v → v.isNullOrEmptyObj = false) ∧
    (∀ (r : ReportSynthesisRecord) (k : String) (v : JValue),
      JValue.getKey r.to_dict k = some v → v.isNullOrEmptyObj = false) := by
  refine ⟨?_, ?_, ?_, ?_⟩
  · intro p k v h
    exact lookupField_dropNullOrEmpty h
  · intro s k v h
    exact lookupField_dropNullOrEmpty h
  · intro w k v h
    exact lookupField_dropNullOrEmpty h
  · intro r k v h
    have hv := lookupField_some_mem h
    simp only [ReportSynthesisRecord.to_dict, List.map_cons, List.map_nil,
      List.mem_cons, List.not_mem_nil, or_false] at hv
    rcases hv with rfl | rfl | rfl | rfl | rfl | rfl | rfl <;> rfl

/-- Witness for **C4** (amended) at a persona with a description. -/
theorem c4_amended_to_dict_omits_null_empty_witness :
    JValue.getKey
        (Persona.to_dict { name := "Analyst", description := some "d" })
        "description"
      = some (JValue.str "d") ∧
    (JValue.str "d").isNullOrEmptyObj = false :=
  ⟨rfl,
    c4_amended_to_dict_omits_null_empty.1
      { name := "Analyst", description := some "d" } "description"
      (JValue.str "d") rfl⟩

/-- **C6**: a second `create_project` on the same name leaves the filesystem
— in particular `project.json` with its `project_name` and `created_at` —
exactly as the first call left it; and when no manifest existed beforehand,
the first call is the one that wrote it, with its own timestamp. -/
theorem c6_create_project_idempotent (st : PState) (pn : String)
    (t1 t2 : DateTime) :
    (ProjectFolderManager.create_project
        (ProjectFolderManager.create_project st pn t1) pn t2).fs
      = (ProjectFolderManager.create_project st pn t1).fs ∧
    (st.fs.read (pn ++ "/project.json") = none →
      (ProjectFolderManager.create_project st pn t1).fs.read
          (pn ++ "/project.json")
        = some (FileContent.json (JValue.obj
            [("project_name", JValue.str pn),
             ("created_at", JValue.str (isoformat t1 ++ "Z"))]))) := by
  constructor
  · exact ProjectFolderManager.create_project_fs_of_present _ pn t2
      (ProjectFolderManager.create_project_manifest_isSome st pn t1)
      (ProjectFolderManager.create_project_index_isSome st pn t1)
  · intro habsent
    unfold ProjectFolderManager.create_project write_json
    dsimp only
    have hm : (st.fs.read (pn ++ "/project.json")).isSome = false := by
      simp [habsent]
    simp only [hm, Bool.false_eq_true, if_false]
    split_ifs with h2
    · exact FS.read_write_self _ _ _
    · rw [FS.read_write_ne _ _ (Ne.symm (manifest_ne_index pn))]
      exact FS.read_write_self _ _ _

/-- Witness for **C6** from the empty state. -/
theorem c6_create_project_idempotent_witness :
    (({} : PState).fs.read ("demo" ++ "/project.json") = none) ∧
    (ProjectFolderManager.create_project {} "demo" 7).fs.read
        ("demo" ++ "/project.json")
      = some (FileContent.json (JValue.obj
          [("project_name", JValue.str "demo"),
           ("created_at", JValue.str (isoformat 7 ++ "Z"))])) :=
  ⟨rfl, (c6_create_project_idempotent {} "demo" 7 11).2 rfl⟩

/-- **C7**: encoding an `AgentProcessRecord` with `to_dict` and decoding with
`_deserialize_agent_record` restores the record exactly (the timestamp is
written as `isoformat + "Z"` and the `"Z"` is stripped on parse); and a
stored object carrying only the required fields decodes with the documented
empty defaults for `tool`, `metadata`, `graph_snapshot`, `skills` and
`workflow`. -/
theorem c7_agent_record_roundtrip :
    (∀ (r : AgentProcessRecord) (now : DateTime),
      ProjectFolderManager.deserialize_agent_record r.to_dict now
        = Except.ok r) ∧
    (∀ t : DateTime, parse_timestamp (isoformat t ++ "Z") = some t) ∧
    (∀ (aid scid pname ip eo : String) (t now : DateTime),
      ProjectFolderManager.deserialize_agent_record
        (JValue.obj
          [("agent_id", JValue.str aid),
           ("source_chat_id", JValue.str scid),
           ("persona", JValue.obj [("name", JValue.str pname)]),
           ("input_prompt", JValue.str ip),
           ("expected_output", JValue.str eo),
           ("created_at", JValue.str (isoformat t ++ "Z"))]) now
        = Except.ok
            { agent_id := aid, source_chat_id := scid
              persona := { name := pname, description := none, metadata := [] }
              skills := [], workflow := [], input_prompt := ip
              expected_output := eo, created_at := t
              graph_snapshot := [] }) := by
  refine ⟨deserialize_agent_to_dict, parse_timestamp_isoZ, ?_⟩
  intro aid scid pname ip eo t now
  simp [ProjectFolderManager.deserialize_agent_record, requireKey, requireStr,
    optionalStr, optionalObj, optionalStrList, decodePersona,
    JValue.getKey, JValue.lookupField, parse_timestamp_isoZ,
    Except.bind, bind]

/-- **C3**: `load_agent` fails with the NotFound error when
`agents/<agent_id>.json` is absent, and succeeds by reading and deserializing
the file when it is present (here: when it holds a serialized agent record). -/
theorem c3_load_agent_notfound (st : PState) (pn aid : String)
    (now : DateTime) :
    (st.fs.read (pn ++ "/agents/" ++ aid ++ ".json") = none →
      ProjectFolderManager.load_agent st pn aid now
        = Except.error PMError.notFound) ∧
    (∀ r : AgentProcessRecord,
      st.fs.read (pn ++ "/agents/" ++ aid ++ ".json")
          = some (FileContent.json r.to_dict) →
      ProjectFolderManager.load_agent st pn aid now = Except.ok r) := by
  have hpath : pn ++ "/agents/" ++ aid ++ ".json"
      = pn ++ "/agents/" ++ (aid ++ ".json") := by
    rw [String.append_assoc]
  have hread : (ProjectFolderManager.create_project st pn now).fs.read
      (pn ++ "/agents/" ++ aid ++ ".json")
      = st.fs.read (pn ++ "/agents/" ++ aid ++ ".json") := by
    rw [hpath]
    exact ProjectFolderManager.create_project_read_other st pn now _
      (agents_ne_manifest pn (aid ++ ".json"))
      (agents_ne_index pn (aid ++ ".json"))
  constructor
  · intro habsent
    unfold ProjectFolderManager.load_agent read_json
    simp only [bind, Except.bind, hread, habsent]
  · intro r hpresent
    unfold ProjectFolderManager.load_agent read_json
    simp only [bind, Except.bind, hread, hpresent]
    exact deserialize_agent_to_dict r now

/-- Witness for **C3**: an empty project yields NotFound; a seeded file is
read back and deserialized. -/
theorem c3_load_agent_notfound_witness :
    (({} : PState).fs.read ("demo" ++ "/agents/" ++ "agent-x" ++ ".json")
        = none) ∧
    ProjectFolderManager.load_agent {} "demo" "agent-x" 2
      = Except.error PMError.notFound ∧
    (({ fs := [("demo/agents/agent-y.json",
          FileContent.json (AgentProcessRecord.to_dict
            { agent_id := "agent-y", source_chat_id := "chat-y"
              persona := { name := "Analyst" }, skills := ["sql_query"]
              workflow := [{ name := "s0", input_text := "i", output_text := "o" }]
              input_prompt := "p", expected_output := "e"
              created_at := 3 }))] } : PState).fs.read
        ("demo" ++ "/agents/" ++ "agent-y" ++ ".json")
      = some (FileContent.json (AgentProcessRecord.to_dict
          { agent_id := "agent-y", source_chat_id := "chat-y"
            persona := { name := "Analyst" }, skills := ["sql_query"]
            workflow := [{ name := "s0", input_text := "i", output_text := "o" }]
            input_prompt := "p", expected_output := "e"
            created_at := 3 }))) ∧
    ProjectFolderManager.load_agent
        { fs := [("demo/agents/agent-y.json",
            FileContent.json (AgentProcessRecord.to_dict
              { agent_id := "agent-y", source_chat_id := "chat-y"
                persona := { name := "Analyst" }, skills := ["sql_query"]
                workflow := [{ name := "s0", input_text := "i", output_text := "o" }]
                input_prompt := "p", expected_output := "e"
                created_at := 3 }))] } "demo" "agent-y" 2
      = Except.ok
          { agent_id := "agent-y", source_chat_id := "chat-y"
            persona := { name := "Analyst" }, skills := ["sql_query"]
            workflow := [{ name := "s0", input_text := "i", output_text := "o" }]
            input_prompt := "p", expected_output := "e"
            created_at := 3 } :=
  ⟨rfl,
    (c3_load_agent_notfound {} "demo" "agent-x" 2).1 rfl,
    rfl,
    (c3_load_agent_notfound _ "demo" "agent-y" 2).2 _ rfl⟩

/-- Loading an agent path that holds a serialized record recovers it. -/
theorem load_agent_of_stored (st : PState) (pn aid : String)
    (now : DateTime) (r : AgentProcessRecord)
    (h : st.fs.read (pn ++ "/agents/" ++ aid ++ ".json")
        = some (FileContent.json r.to_dict)) :
    ProjectFolderManager.load_agent st pn aid now = Except.ok r := by
  have hpath : pn ++ "/agents/" ++ aid ++ ".json"
      = pn ++ "/agents/" ++ (aid ++ ".json") := by
    rw [String.append_assoc]
  have hread : (ProjectFolderManager.create_project st pn now).fs.read
      (pn ++ "/agents/" ++ aid ++ ".json")
      = st.fs.read (pn ++ "/agents/" ++ aid ++ ".json") := by
    rw [hpath]
    exact ProjectFolderManager.create_project_read_other st pn now _
      (agents_ne_manifest pn (aid ++ ".json"))
      (agents_ne_index pn (aid ++ ".json"))
  unfold ProjectFolderManager.load_agent read_json
  simp only [bind, Except.bind, hread, h]
  exact deserialize_agent_to_dict r now

/-- **C1**: after a successful `ingest_chat`, `load_agent` on the returned
record's `agent_id` recovers a record whose `expected_output`,
`input_prompt`, `persona` and `skills` equal the source chat's
`output_text`, `input_prompt`, `persona` and `skills_used`, and whose
`agent_id` is `"agent-"` followed by the canonical chat identifier. -/
theorem c1_ingest_then_load_agent (st : PState) (pn : String)
    (record : ChatSessionRecord) (now t2 : DateTime) (uuid_hex6 : String)
    (st' : PState) (ag : AgentProcessRecord)
    (h : ProjectFolderManager.ingest_chat st pn record now uuid_hex6
        = Except.ok (st', ag)) :
    ProjectFolderManager.load_agent st' pn ag.agent_id t2 = Except.ok ag ∧
    ag.agent_id
      = "agent-" ++ ProjectFolderManager.canonical_chat_id record uuid_hex6 ∧
    ag.expected_output = record.output_text ∧
    ag.input_prompt = record.input_prompt ∧
    ag.persona = record.persona ∧
    ag.skills = record.skills_used := by
  unfold ProjectFolderManager.ingest_chat at h
  simp only [bind, Except.bind] at h
  split at h
  · exact absurd h (by simp)
  · split at h
    · exact absurd h (by simp)
    · next fs1 hu fs2 hpersist =>
      rw [Except.ok.injEq, Prod.mk.injEq] at h
      obtain ⟨hst, hag⟩ := h
      subst hst
      subst hag
      refine ⟨?_, rfl, rfl, rfl, rfl, rfl⟩
      exact load_agent_of_stored _ pn _ t2 _
        (ProjectFolderManager.persist_agent_record_ok_reads _ pn _ fs2
          hpersist).1

/-- A concrete chat session used to witness the ingest/load round trip. -/
def c1_chat_record : ChatSessionRecord :=
  { persona := { name := "Analyst", description := some "Understands sales data" }
    skills_used := ["sql_query", "summarisation"]
    input_prompt := "Show quarterly sales."
    output_text := "Sales increased."
    reasoning :=
      [{ name := "chat-step-0", input_text := "chat input 0",
         output_text := "chat output 0", tool := some "mock_tool" },
       { name := "chat-step-1", input_text := "chat input 1",
         output_text := "chat output 1", tool := some "mock_tool" }]
    graph_snapshot := [("nodes", JValue.int 10)]
    chat_id := some "chat-1"
    created_at := 5 }

/-- The state/record pair produced by ingesting `c1_chat_record`. -/
def c1_pair : PState × AgentProcessRecord :=
  match ProjectFolderManager.ingest_chat {} "demo" c1_chat_record 5 "ab12cd" with
  | Except.ok p => p
  | Except.error _ =>
    ({}, { agent_id := "", source_chat_id := "", persona := { name := "" }
           skills := [], workflow := [], input_prompt := ""
           expected_output := "", created_at := 0 })

/-- Witness for **C1** on a concrete ingest into an empty project root. -/
theorem c1_ingest_then_load_agent_witness :
    ProjectFolderManager.ingest_chat {} "demo" c1_chat_record 5 "ab12cd"
      = Except.ok (c1_pair.1, c1_pair.2) ∧
    ProjectFolderManager.load_agent c1_pair.1 "demo" c1_pair.2.agent_id 9
      = Except.ok c1_pair.2 ∧
    c1_pair.2.agent_id
      = "agent-" ++ ProjectFolderManager.canonical_chat_id c1_chat_record "ab12cd" ∧
    c1_pair.2.expected_output = c1_chat_record.output_text :=
  ⟨rfl,
    (c1_ingest_then_load_agent {} "demo" c1_chat_record 5 9 "ab12cd"
      c1_pair.1 c1_pair.2 rfl).1,
    (c1_ingest_then_load_agent {} "demo" c1_chat_record 5 9 "ab12cd"
      c1_pair.1 c1_pair.2 rfl).2.1,
    (c1_ingest_then_load_agent {} "demo" c1_chat_record 5 9 "ab12cd"
      c1_pair.1 c1_pair.2 rfl).2.2.1⟩

/-- The index entry recorded for an agent (`index.json → "agents" → aid`). -/
def indexAgentEntry (fs : FS) (pn aid : String) : Option JValue :=
  match fs.read (pn ++ "/index.json") with
  | some (FileContent.json idx) =>
    (idx.getKey "agents").bind (fun a => a.getKey aid)
  | _ => none

/-- A concrete chat session exercising the plan-persistence behaviour. -/
def c2_chat_record : ChatSessionRecord :=
  { persona := { name := "Analyst" }
    skills_used := ["sql_query"]
    input_prompt := "Show quarterly sales."
    output_text := "Sales increased."
    reasoning :=
      [{ name := "chat-step-0", input_text := "chat input 0",
         output_text := "chat output 0", tool := some "mock_tool" }]
    chat_id := some "chat-2"
    created_at := 5 }

/-- The state/record pair produced by ingesting `c2_chat_record`. -/
def c2_pair : PState × AgentProcessRecord :=
  match ProjectFolderManager.ingest_chat {} "demo" c2_chat_record 5 "cd34ef" with
  | Except.ok p => p
  | Except.error _ =>
    ({}, { agent_id := "", source_chat_id := "", persona := { name := "" }
           skills := [], workflow := [], input_prompt := ""
           expected_output := "", created_at := 0 })

/-- **C2**: evaluation at the failing input.  `ingest_chat` (via
`_persist_agent_record`) writes only `agents/<agent_id>.json` and an index
entry with `source_chat_id`/`persona`/`skills`/`created_at`: no
`plan.json`/`plan.md` companion files are created, the index entry records
no `plan_path`/`plan_markdown_path`, and the manager defines no
`load_agent_plan` at all — although the repository's own test suite asserts
all of these (and the spec declares the richer behaviour authoritative). -/
theorem c2_no_plan_artifacts :
    ProjectFolderManager.ingest_chat {} "demo" c2_chat_record 5 "cd34ef"
      = Except.ok (c2_pair.1, c2_pair.2) ∧
    c2_pair.2.agent_id = "agent-chat-2" ∧
    c2_pair.1.fs.read ("demo" ++ "/agents/" ++ "agent-chat-2" ++ ".plan.json")
      = none ∧
    c2_pair.1.fs.read ("demo" ++ "/agents/" ++ "agent-chat-2" ++ ".plan.md")
      = none ∧
    (indexAgentEntry c2_pair.1.fs "demo" "agent-chat-2").isSome = true ∧
    (indexAgentEntry c2_pair.1.fs "demo" "agent-chat-2").bind
        (fun e => e.getKey "plan_path") = none ∧
    (indexAgentEntry c2_pair.1.fs "demo" "agent-chat-2").bind
        (fun e => e.getKey "plan_markdown_path") = none :=
  ⟨rfl, rfl, rfl, rfl, rfl, rfl, rfl⟩
